import Mathlib

/-!
Named-resource indirection: the `resource` input wrapper and the resource label linter

A shallow embedding of

* `lib/input/resource.go`  : `NewResource`, `Resource.TransactionChan`, `Resource.Connected`,
  `Resource.CloseAsync`, `Resource.WaitForClose`;
* `lib/manager/docs.go`    : `lintResource`, `Spec`;
* `public/x/service/logger_test.go` : the two tests of the air-gapped logger.

Go references (the manager, the logger, the metrics counter) are handles into an explicit
`World`; every operation of the wrapper is a function `World → result × World`.
-/

namespace Benthos

/-! ## Association lists used as tables -/

/-- Value bound to key `k`, first match. -/
def assocGet {κ β : Type} [DecidableEq κ] (k : κ) : List (κ × β) → Option β
  | [] => none
  | (k', v) :: rest => if k' = k then some v else assocGet k rest

/-- Bind `k` to `v`: an existing entry is replaced in place, a new one is appended. -/
def assocPut {κ β : Type} [DecidableEq κ] (k : κ) (v : β) : List (κ × β) → List (κ × β)
  | [] => [(k, v)]
  | (k', v') :: rest => if k' = k then (k, v) :: rest else (k', v') :: assocPut k v rest

/-! ## Collaborators of the wrapper -/

/-- A Go `error` value, identified by its message. -/
structure GoError where
  Error : String
deriving DecidableEq, Repr

/-- Modelled from the spec: the `NotFound` error of the registry API (§6, §7); the error
values themselves are declared outside `lib/input/resource.go`. -/
def ErrNotFound : GoError := ⟨"not found"⟩

/-- A Go value of type `<-chan types.Transaction`: `none` is the nil channel (a receive on it
never yields and never reports closure), `some c` is the channel object with identity `c`. -/
abbrev Stream := Option Nat

/-- Modelled from the spec: a live streaming input (`types.Input`, §3 "Streaming Input
Resource"), seen through the two methods the wrapper relays: the transaction stream it hands
out and its connectivity flag. -/
structure Input where
  TransactionChan : Stream
  Connected : Bool
deriving DecidableEq, Repr

/-- Handle of a `types.Manager` (a registry). -/
abbrev ManagerRef := Nat

/-- Handle of a `log.Modular` logger. -/
abbrev LoggerRef := Nat

/-- Handle of a `metrics.Type` namespace. -/
abbrev StatsRef := Nat

/-- Handle of a `metrics.StatCounter`: the namespace it was taken from and its path. -/
abbrev StatCounter := StatsRef × String

/-- Severity of a logger call. -/
inductive LogLevel
  | Debug | Info | Warn | Error
deriving DecidableEq, Repr

/-- One call made on a logger: the logger, the severity, the format string and the arguments
as `%v` renders them. -/
structure LogCall where
  logger : LoggerRef
  level : LogLevel
  format : String
  args : List String
deriving DecidableEq, Repr

/-- One call made on a manager through `internal/interop`. -/
inductive RegistryCall
  | Probe (mgr : ManagerRef) (name : String)
  | Access (mgr : ManagerRef) (name : String)
deriving DecidableEq, Repr

/-- Everything the wrapper can read or change: the input table of every manager (§2 "Resource
Registry"), the record of manager calls, the record of logger calls and the counters. -/
structure World where
  managers : List (ManagerRef × List (String × Input))
  calls : List RegistryCall
  logs : List LogCall
  counters : List (StatCounter × Int)
deriving DecidableEq, Repr

/-- The instance bound to `name` in the input table of manager `mgr`, if any. -/
def World.input (w : World) (mgr : ManagerRef) (name : String) : Option Input :=
  match assocGet mgr w.managers with
  | none => none
  | some table => assocGet name table

/-- Current value of a counter (a counter never incremented reads 0). -/
def World.counter (w : World) (c : StatCounter) : Int :=
  (assocGet c w.counters).getD 0

/-- Modelled from the spec: `Register` on an already used label at configuration reload (§3
"replaced in place when configuration is reloaded with the same label"); the registry itself
is implemented outside `lib/input/resource.go`. -/
def World.rebind (w : World) (mgr : ManagerRef) (name : String) (i : Input) : World :=
  { w with
    managers := assocPut mgr (assocPut name i ((assocGet mgr w.managers).getD [])) w.managers }

/-- Modelled from the spec: `interop.ProbeInput`, the `Probe(kind, label) -> ok | ErrNotFound`
existence check of §4.1, which does not invoke the resource. The call is recorded. -/
def ProbeInput (mgr : ManagerRef) (name : String) (w : World) : Option GoError × World :=
  let w1 := { w with calls := w.calls ++ [RegistryCall.Probe mgr name] }
  match w.input mgr name with
  | some _ => (none, w1)
  | none => (some ErrNotFound, w1)

/-- Modelled from the spec: `interop.AccessInput`, the
`Access(kind, label, operation) -> ErrNotFound | result-of-operation` of §4.1: the label is
resolved and `operation` is invoked synchronously on the live instance. The variables the Go
closure captures and assigns are the state `σ`. The call is recorded. -/
def AccessInput {σ : Type} (mgr : ManagerRef) (name : String) (fn : Input → σ → σ) (s : σ)
    (w : World) : Option GoError × σ × World :=
  let w1 := { w with calls := w.calls ++ [RegistryCall.Access mgr name] }
  match w.input mgr name with
  | some i => (none, fn i s, w1)
  | none => (some ErrNotFound, s, w1)

/-- Modelled from the spec: `log.Modular.Debugf`, recorded as a call at debug severity. -/
def Debugf (l : LoggerRef) (format : String) (args : List String) (w : World) : World :=
  { w with logs := w.logs ++ [⟨l, LogLevel.Debug, format, args⟩] }

/-- Modelled from the spec: `metrics.Type.GetCounter`, the counter of a namespace under a
path. -/
def GetCounter (stats : StatsRef) (path : String) : StatCounter := (stats, path)

/-- Modelled from the spec: `metrics.StatCounter.Incr`, which adds `count` to the counter. -/
def StatCounter.Incr (c : StatCounter) (count : Int) (w : World) : World :=
  { w with counters := assocPut c (w.counter c + count) w.counters }

/-! ## `lib/input/resource.go` -/

/-- The part of `input.Config` that `NewResource` reads. -/
structure Config where
  Resource : String
deriving DecidableEq, Repr

/-- Resource is an input that wraps an input resource. -/
structure Resource where
  mgr : ManagerRef
  name : String
  log : LoggerRef
  mErrNotFound : StatCounter
deriving DecidableEq, Repr

/-- NewResource returns a resource input: `(wrapper, error)` and the world afterwards. -/
def NewResource (conf : Config) (mgr : ManagerRef) (log : LoggerRef) (stats : StatsRef)
    (w : World) : (Option Resource × Option GoError) × World :=
  match ProbeInput mgr conf.Resource w with
  | (some err, w1) => ((none, some err), w1)
  | (none, w1) =>
    ((some { mgr := mgr
             name := conf.Resource
             log := log
             mErrNotFound := GetCounter stats "error_not_found" }, none), w1)

/-- TransactionChan returns a transactions channel for consuming messages from this input
type. The named result `tChan` starts as the nil channel. -/
def Resource.TransactionChan (r : Resource) (w : World) : Stream × World :=
  match AccessInput r.mgr r.name (fun i _ => i.TransactionChan) (none : Stream) w with
  | (some err, tChan, w1) =>
    let w2 := Debugf r.log "Failed to obtain input resource '%v': %v" [r.name, err.Error] w1
    let w3 := r.mErrNotFound.Incr 1 w2
    (tChan, w3)
  | (none, tChan, w1) => (tChan, w1)

/-- Connected returns a boolean indicating whether this input is currently connected to its
target. The named result `isConnected` starts as `false`. -/
def Resource.Connected (r : Resource) (w : World) : Bool × World :=
  match AccessInput r.mgr r.name (fun i _ => i.Connected) false w with
  | (some err, isConnected, w1) =>
    let w2 := Debugf r.log "Failed to obtain input resource '%v': %v" [r.name, err.Error] w1
    let w3 := r.mErrNotFound.Incr 1 w2
    (isConnected, w3)
  | (none, isConnected, w1) => (isConnected, w1)

/-- CloseAsync shuts down the processor and stops processing requests: the body is empty.
The receiver is a pointer, so the wrapper after the call is part of the result. -/
def Resource.CloseAsync (r : Resource) (w : World) : Resource × World := (r, w)

/-- WaitForClose blocks until the processor has closed down: the body is `return nil`. -/
def Resource.WaitForClose (r : Resource) (_timeout : Int) (w : World) :
    Option GoError × Resource × World := (none, r, w)

/-- The two operations of the wrapper that resolve the label. -/
inductive Lookup
  | TransactionChan | Connected
deriving DecidableEq, Repr

/-- The world after one call of `TransactionChan` or of `Connected`. -/
def Resource.call (r : Resource) (op : Lookup) (w : World) : World :=
  match op with
  | Lookup.TransactionChan => (r.TransactionChan w).2
  | Lookup.Connected => (r.Connected w).2

/-- The world after a sequence of calls, made one after another. -/
def Resource.calls (r : Resource) : List Lookup → World → World
  | [], w => w
  | op :: ops, w => Resource.calls r ops (r.call op w)

/-! ## `lib/manager/docs.go` -/

/-- A decoded configuration value (Go `interface{}` as the YAML/JSON decoder produces it):
`null` is the nil interface, `obj` is a `map[string]interface{}`, `arr` a `[]interface{}`, and
`other` is a value of any further Go type (a `float64`, a map whose keys are not all strings,
...), given by its printed form: `gabs` does not descend into it and it is not a string. -/
inductive Value
  | null
  | bool (b : Bool)
  | num (n : Int)
  | str (s : String)
  | arr (items : List Value)
  | obj (fields : List (String × Value))
  | other (printed : String)

/-- A `*gabs.Container`: `none` is the nil pointer, `some v` wraps the value `v`. -/
abbrev Container := Option Value

/-- The library call `gabs.Wrap`. -/
def gabsWrap (v : Value) : Container := some v

/-- The library call `Container.Data`: the wrapped value, nil for the nil container. -/
def Container.Data : Container → Value
  | none => Value.null
  | some v => v

/-- Decimal digits of a string as a number, `none` when it is empty or holds another
character. -/
def parseDigits (cs : List Char) : Option Nat :=
  match cs with
  | [] => none
  | _ => if cs.all Char.isDigit then some (cs.foldl (fun n c => 10 * n + (c.toNat - 48)) 0)
         else none

/-- The library call `strconv.Atoi`: an optional sign followed by decimal digits. -/
def Atoi (s : String) : Option Int :=
  match s.toList with
  | '+' :: ds => (parseDigits ds).map Int.ofNat
  | '-' :: ds => (parseDigits ds).map (fun n => - Int.ofNat n)
  | ds => (parseDigits ds).map Int.ofNat

/-- The library call `Container.S` (`Search`) with a single path segment: on an object the
value under the key, on an array the element at the index the segment spells (`"*"` selects
the whole non-empty array), and the nil container in every other case. -/
def Container.S (g : Container) (pathSeg : String) : Container :=
  match g.Data with
  | Value.obj fields =>
    match assocGet pathSeg fields with
    | some v => some v
    | none => none
  | Value.arr items =>
    if pathSeg = "*" then
      (if items.isEmpty then none else some (Value.arr items))
    else
      match Atoi pathSeg with
      | none => none
      | some index =>
        if index < 0 ∨ (items.length : Int) ≤ index then none else items.get? index.toNat
  | _ => none

/-- The Go expression `x.(string)` in its two-result form with the flag dropped: the string
held by `x`, or the zero value `""` when `x` holds no string. -/
def assertString : Value → String
  | Value.str s => s
  | _ => ""

/-- Modelled from the spec: `docs.Lint` as `docs.NewLintError` fills it, a lint of error level
with "source location" (§4.3): the line and the text handed to the constructor. The type is
declared outside `lib/manager/docs.go`. -/
structure Lint where
  Line : Int
  What : String
deriving DecidableEq, Repr

/-- Modelled from the spec: `docs.NewLintError`, called with a line and a message. -/
def NewLintError (line : Int) (msg : String) : Lint := { Line := line, What := msg }

/-- The function `lintResource`; `Ctx` stands for `docs.LintContext`, which it never reads. -/
def lintResource {Ctx : Type} (_ctx : Ctx) (line _col : Int) (v : Value) : List Lint :=
  let gObj := gabsWrap v
  let label := assertString (gObj.S "label").Data
  if label = "" then
    [NewLintError line "The label field for resources must be unique and not empty"]
  else
    []

/-- Component types a field can hold (`docs.FieldInput`, ...). -/
inductive FieldType
  | Object | Input | Condition | Processor | Output | Cache | RateLimit
deriving DecidableEq, Repr

/-- Shape of a field: a single value, `.Array()` or `.Map()`. -/
inductive FieldKind
  | Scalar | Array | Map
deriving DecidableEq, Repr

/-- Modelled from the spec: `docs.FieldSpec` as far as `Spec` sets it: name, description,
whether it was made with `FieldAdvanced`, shape, component type, children, the omit rule and
the custom linter. -/
inductive FieldSpec (Ctx : Type)
  | mk (Name Description : String) (IsAdvanced : Bool) (Kind : FieldKind)
      (HasType : Option FieldType) (Children : List (FieldSpec Ctx))
      (omitWhen : Option (Value → Value → String × Bool))
      (customLint : Option (Ctx → Int → Int → Value → List Lint))

/-- Name of a field. -/
def FieldSpec.Name {Ctx : Type} : FieldSpec Ctx → String
  | FieldSpec.mk n _ _ _ _ _ _ _ => n

/-- Shape of a field. -/
def FieldSpec.Kind {Ctx : Type} : FieldSpec Ctx → FieldKind
  | FieldSpec.mk _ _ _ k _ _ _ _ => k

/-- Custom linter installed on a field with `.Linter(...)`, if any. -/
def FieldSpec.customLint {Ctx : Type} :
    FieldSpec Ctx → Option (Ctx → Int → Int → Value → List Lint)
  | FieldSpec.mk _ _ _ _ _ _ _ l => l

/-- The library call `len(gabs.Wrap(field).ChildrenMap())`: the number of keys of an object,
0 for anything else. -/
def childrenMapLen : Value → Nat
  | Value.obj fields => fields.length
  | _ => 0

/-- Spec returns a field spec for the manager configuration. -/
def Spec (Ctx : Type) : List (FieldSpec Ctx) :=
  [ FieldSpec.mk "resources"
      "A map of components identified by unique names that can be referenced throughout a Benthos config."
      false FieldKind.Scalar none
      [ FieldSpec.mk "inputs" "A map of inputs." false FieldKind.Map (some FieldType.Input) [] none none,
        FieldSpec.mk "conditions" "A map of conditions." false FieldKind.Map
          (some FieldType.Condition) [] none none,
        FieldSpec.mk "processors" "A map of processors." false FieldKind.Map
          (some FieldType.Processor) [] none none,
        FieldSpec.mk "outputs" "A map of outputs." false FieldKind.Map (some FieldType.Output) [] none none,
        FieldSpec.mk "caches" "A map of caches." false FieldKind.Map (some FieldType.Cache) [] none none,
        FieldSpec.mk "rate_limits" "A map of rate limits." false FieldKind.Map
          (some FieldType.RateLimit) [] none none,
        FieldSpec.mk "plugins" "A map of resource plugins." true FieldKind.Map
          (some FieldType.Object) [] none none ]
      (some (fun field _parent =>
        if childrenMapLen field = 0 then ("resources should be omitted when empty", true)
        else ("", false)))
      none,
    FieldSpec.mk "input_resources" "A list of input resources, each must have a unique label."
      false FieldKind.Array (some FieldType.Input) [] none (some lintResource),
    FieldSpec.mk "processor_resources"
      "A list of processor resources, each must have a unique label."
      false FieldKind.Array (some FieldType.Processor) [] none (some lintResource),
    FieldSpec.mk "output_resources" "A list of output resources, each must have a unique label."
      false FieldKind.Array (some FieldType.Output) [] none (some lintResource),
    FieldSpec.mk "cache_resources" "A list of cache resources, each must have a unique label."
      false FieldKind.Array (some FieldType.Cache) [] none (some lintResource),
    FieldSpec.mk "rate_limit_resources"
      "A list of rate limit resources, each must have a unique label."
      false FieldKind.Array (some FieldType.RateLimit) [] none (some lintResource) ]

/-- One entry of a resource list as a linter receives it: its line, its column and its
decoded value. -/
structure Declaration where
  line : Int
  col : Int
  value : Value

/-- The custom linter that `Spec` installs on the field of the given name, if any. -/
def installedLinter (Ctx : Type) (field : String) :
    Option (Ctx → Int → Int → Value → List Lint) :=
  match (Spec Ctx).find? (fun f => f.Name = field) with
  | some f => f.customLint
  | none => none

/-- The label a declaration carries: the string under its `label` key, when the declaration
is an object that has one. -/
def Value.label : Value → Option String
  | Value.obj fields =>
    match assocGet "label" fields with
    | some (Value.str s) => some s
    | _ => none
  | _ => none


/-! ## `public/x/service/logger_test.go`: the air-gapped logger -/

/-- A Go `interface{}` argument of `With` or of a formatting call, as far as the tests use
them: a string, an integer or a boolean. -/
inductive Arg
  | str (s : String)
  | int (n : Int)
  | bool (b : Bool)
deriving DecidableEq, Repr

/-- The string form of an argument: a string is itself, anything else is what `%v` prints. -/
def Arg.render : Arg → String
  | Arg.str s => s
  | Arg.int n => toString n
  | Arg.bool b => if b then "true" else "false"

/-- Position of a severity in the order debug, info, warn, error. -/
def LogLevel.rank : LogLevel → Nat
  | LogLevel.Debug => 0
  | LogLevel.Info => 1
  | LogLevel.Warn => 2
  | LogLevel.Error => 3

/-- One line written to the log buffer: severity, format string with its rendered arguments
(the `message`), and the fields printed beside them. Every line the tests expect is a JSON
object, so a line has one value per key: `fields` is read by key, with `assocGet`. -/
structure Record where
  level : LogLevel
  format : String
  args : List String
  fields : List (String × String)
deriving DecidableEq, Repr

/-- Modelled from the spec: the `log.Modular` that `log.New` returns (package `lib/log`, of
which only this use is at hand), as `TestReverseAirGapLogger` observes it: a threshold below
which nothing is written, and the fields printed with every line, one value per key. -/
structure Modular where
  threshold : LogLevel
  fields : List (String × String)
deriving DecidableEq, Repr

/-- Modelled from the spec: a formatting call on a `log.Modular`; the line is appended to the
buffer when its severity reaches the threshold, and dropped otherwise (the tests expect no
`Debugf` line from the default configuration). -/
def Modular.logf (m : Modular) (level : LogLevel) (format : String) (args : List Arg)
    (buf : List Record) : List Record :=
  if m.threshold.rank ≤ level.rank then
    buf ++ [{ level := level, format := format, args := args.map Arg.render, fields := m.fields }]
  else
    buf

/-- Modelled from the spec: the logger under test (of `newReverseAirGapLogger` and its
methods only the tests are at hand): it wraps a `log.Modular`. -/
structure AirGapLogger where
  m : Modular
deriving DecidableEq, Repr

/-- Modelled from the spec: `newReverseAirGapLogger`, which wraps the given logger. -/
def newReverseAirGapLogger (m : Modular) : AirGapLogger := { m := m }

/-- Fields formed by pairing consecutive arguments: argument `2i` is the key and argument
`2i+1` its value, each in its string form; a last argument without partner is dropped. -/
def pairFields : List Arg → List (String × String)
  | k :: v :: rest => (k.render, v.render) :: pairFields rest
  | _ => []

/-- Fields after setting the given pairs, one after the other, on top of `fields`: a pair
whose key is present replaces that key's value, a pair with a new key adds a field. -/
def setFields (fields pairs : List (String × String)) : List (String × String) :=
  pairs.foldl (fun fs kv => assocPut kv.1 kv.2 fs) fields

/-- Value of the last pair that has the key `key`, if a pair has it. -/
def lastValue (key : String) : List (String × String) → Option String
  | [] => none
  | (k, v) :: rest =>
    match lastValue key rest with
    | some later => some later
    | none => if k = key then some v else none

/-- Modelled from the spec: `With` of the air-gapped logger, whose body is not at hand, from
what `TestReverseAirGapLogger` and `TestReverseAirGapLoggerDodgyFields` expect: the receiver
goes on writing its own fields only, so it is returned as it was, beside the derived logger;
each expected line of the derived logger is a JSON object holding the receiver's fields and
the complete pairs of arguments in string form; an object has one value per key, so the pairs
are set by key, in argument order. -/
def AirGapLogger.With (l : AirGapLogger) (keyValuePairs : List Arg) :
    AirGapLogger × AirGapLogger :=
  (l, newReverseAirGapLogger
        { l.m with fields := setFields l.m.fields (pairFields keyValuePairs) })

/-- Modelled from the spec: `Debugf` of the air-gapped logger. -/
def AirGapLogger.Debugf (l : AirGapLogger) (format : String) (args : List Arg)
    (buf : List Record) : List Record := l.m.logf LogLevel.Debug format args buf

/-- Modelled from the spec: `Infof` of the air-gapped logger. -/
def AirGapLogger.Infof (l : AirGapLogger) (format : String) (args : List Arg)
    (buf : List Record) : List Record := l.m.logf LogLevel.Info format args buf

/-- Modelled from the spec: `Warnf` of the air-gapped logger. -/
def AirGapLogger.Warnf (l : AirGapLogger) (format : String) (args : List Arg)
    (buf : List Record) : List Record := l.m.logf LogLevel.Warn format args buf

/-- Modelled from the spec: `Errorf` of the air-gapped logger. -/
def AirGapLogger.Errorf (l : AirGapLogger) (format : String) (args : List Arg)
    (buf : List Record) : List Record := l.m.logf LogLevel.Error format args buf

/-- The logger both tests build: `log.New` on the default configuration without time stamp,
which writes from info upwards and prints `@service` and `component` with every line. -/
def testLogger : Modular :=
  { threshold := LogLevel.Info, fields := [("@service", "benthos"), ("component", "benthos")] }

/-- The body of `TestReverseAirGapLogger`: the buffer after its eight logging calls. -/
def TestReverseAirGapLogger : List Record :=
  let agLogger := newReverseAirGapLogger testLogger
  let step := agLogger.With [Arg.str "field1", Arg.str "value1", Arg.str "field2", Arg.str "value2"]
  let agLogger := step.1
  let agLogger2 := step.2
  let buf : List Record := []
  let buf := agLogger.Debugf "foo: %v" [Arg.str "bar1"] buf
  let buf := agLogger.Infof "foo: %v" [Arg.str "bar2"] buf
  let buf := agLogger2.Debugf "foo2: %v" [Arg.str "bar1"] buf
  let buf := agLogger2.Infof "foo2: %v" [Arg.str "bar2"] buf
  let buf := agLogger.Warnf "foo: %v" [Arg.str "bar3"] buf
  let buf := agLogger.Errorf "foo: %v" [Arg.str "bar4"] buf
  let buf := agLogger2.Warnf "foo2: %v" [Arg.str "bar3"] buf
  let buf := agLogger2.Errorf "foo2: %v" [Arg.str "bar4"] buf
  buf

/-- The body of `TestReverseAirGapLoggerDodgyFields`: the buffer after its four lines. -/
def TestReverseAirGapLoggerDodgyFields : List Record :=
  let agLogger := newReverseAirGapLogger testLogger
  let buf : List Record := []
  let buf := (agLogger.With [Arg.str "field1", Arg.str "value1", Arg.str "field2"]).2.Infof
    "foo1" [] buf
  let buf := (agLogger.With [Arg.int 10, Arg.int 20]).2.Infof "foo2" [] buf
  let buf := (agLogger.With [Arg.str "field3", Arg.int 30]).2.Infof "foo3" [] buf
  let buf := (((agLogger.With [Arg.str "field4", Arg.str "value4"]).2.With
    [Arg.str "field5", Arg.str "value5"]).2).Infof "foo4" [] buf
  buf

/-- A logging call of the air-gapped logger at the given severity: `Debugf`, `Infof`, `Warnf`
or `Errorf`. -/
def AirGapLogger.log (l : AirGapLogger) (level : LogLevel) (format : String) (args : List Arg)
    (buf : List Record) : List Record :=
  match level with
  | LogLevel.Debug => l.Debugf format args buf
  | LogLevel.Info => l.Infof format args buf
  | LogLevel.Warn => l.Warnf format args buf
  | LogLevel.Error => l.Errorf format args buf

/-- The lines a call added to the buffer: what follows the old content. -/
def emitted (before after : List Record) : List Record := after.drop before.length

/-! ## Concrete worlds used to exercise the statements -/

/-- Instance `A`: hands out channel 1 and is connected. -/
def inputA : Input := { TransactionChan := some 1, Connected := true }

/-- Instance `B`: hands out channel 2 and is not connected. -/
def inputB : Input := { TransactionChan := some 2, Connected := false }

/-- Manager 0 has `"src"` bound to `inputA`; nothing is bound under `"ghost"`. -/
def srcWorld : World :=
  { managers := [(0, [("src", inputA)])], calls := [], logs := [], counters := [] }

/-- Wrapper referencing `"src"` on manager 0. -/
def srcWrapper : Resource :=
  { mgr := 0, name := "src", log := 0, mErrNotFound := GetCounter 0 "error_not_found" }

/-- Wrapper referencing the never registered `"ghost"` on manager 0. -/
def ghostWrapper : Resource :=
  { mgr := 0, name := "ghost", log := 0, mErrNotFound := GetCounter 0 "error_not_found" }

/-- Message of the lint that `lintResource` reports. -/
def labelLintText : String := "The label field for resources must be unique and not empty"

/-- Two entries of one list, on lines 2 and 5, both labelled `"foo"`. -/
def duplicateDeclarations : List Declaration :=
  [ { line := 2, col := 5, value := Value.obj [("label", Value.str "foo"), ("kafka", Value.obj [])] },
    { line := 5, col := 5, value := Value.obj [("label", Value.str "foo"), ("file", Value.obj [])] } ]

/-! # Theorems -/

/-! ## Lemmas on tables and on the frame of each operation -/

theorem assocGet_assocPut_same {κ β : Type} [DecidableEq κ] (k : κ) (v : β)
    (l : List (κ × β)) : assocGet k (assocPut k v l) = some v := by
  induction l with
  | nil => simp [assocPut, assocGet]
  | cons hd tl ih =>
    obtain ⟨k', v'⟩ := hd
    by_cases hk : k' = k
    · simp [assocPut, assocGet, hk]
    · simp [assocPut, assocGet, hk, ih]

theorem input_rebind_same (w : World) (mgr : ManagerRef) (name : String) (i : Input) :
    (w.rebind mgr name i).input mgr name = some i := by
  simp [World.rebind, World.input, assocGet_assocPut_same]

theorem counter_Incr_same (c : StatCounter) (n : Int) (w : World) :
    (c.Incr n w).counter c = w.counter c + n := by
  simp [StatCounter.Incr, World.counter, assocGet_assocPut_same]

theorem TransactionChan_bound (r : Resource) (w : World) (i : Input)
    (h : w.input r.mgr r.name = some i) :
    r.TransactionChan w =
      (i.TransactionChan, { w with calls := w.calls ++ [RegistryCall.Access r.mgr r.name] }) := by
  simp [Resource.TransactionChan, AccessInput, h]

theorem TransactionChan_unbound (r : Resource) (w : World)
    (h : w.input r.mgr r.name = none) :
    r.TransactionChan w =
      (none, r.mErrNotFound.Incr 1
        (Debugf r.log "Failed to obtain input resource '%v': %v" [r.name, ErrNotFound.Error]
          { w with calls := w.calls ++ [RegistryCall.Access r.mgr r.name] })) := by
  simp [Resource.TransactionChan, AccessInput, h]

theorem Connected_bound (r : Resource) (w : World) (i : Input)
    (h : w.input r.mgr r.name = some i) :
    r.Connected w =
      (i.Connected, { w with calls := w.calls ++ [RegistryCall.Access r.mgr r.name] }) := by
  simp [Resource.Connected, AccessInput, h]

theorem Connected_unbound (r : Resource) (w : World)
    (h : w.input r.mgr r.name = none) :
    r.Connected w =
      (false, r.mErrNotFound.Incr 1
        (Debugf r.log "Failed to obtain input resource '%v': %v" [r.name, ErrNotFound.Error]
          { w with calls := w.calls ++ [RegistryCall.Access r.mgr r.name] })) := by
  simp [Resource.Connected, AccessInput, h]

/-- A lookup call never changes any registry table. -/
theorem call_managers (r : Resource) (op : Lookup) (w : World) :
    (r.call op w).managers = w.managers := by
  cases op <;> cases h : w.input r.mgr r.name <;>
    simp [Resource.call, TransactionChan_bound, TransactionChan_unbound, Connected_bound,
      Connected_unbound, h, StatCounter.Incr, Debugf]

theorem call_input (r : Resource) (op : Lookup) (w : World) (mgr : ManagerRef) (name : String) :
    (r.call op w).input mgr name = w.input mgr name := by
  simp [World.input, call_managers]

/-- One lookup call moves the wrapper's counter by 1 on a miss and by 0 on a hit. -/
theorem call_counter (r : Resource) (op : Lookup) (w : World) :
    (r.call op w).counter r.mErrNotFound =
      w.counter r.mErrNotFound + (if (w.input r.mgr r.name).isSome then 0 else 1) := by
  cases op <;> cases h : w.input r.mgr r.name <;>
    simp [Resource.call, TransactionChan_bound, TransactionChan_unbound, Connected_bound,
      Connected_unbound, h, counter_Incr_same] <;>
    simp [Debugf, World.counter]

theorem calls_counter (r : Resource) (ops : List Lookup) (w : World) :
    (r.calls ops w).counter r.mErrNotFound =
      w.counter r.mErrNotFound +
        (if (w.input r.mgr r.name).isSome then 0 else (ops.length : Int)) := by
  induction ops generalizing w with
  | nil => simp [Resource.calls]
  | cons op ops ih =>
    rw [Resource.calls, ih, call_input, call_counter]
    split <;> simp
    ring


/-! ## The wrapper: construction, relay, degradation, counting, no-op teardown -/

/-- C1: `NewResource` returns an error exactly when `ProbeInput` for the configured label
does; the error is the probe's own error value and comes with no wrapper; a successful probe
gives a wrapper (holding the handle and the label) and a nil error; the only registry call
made is that one probe (no `Access`), and tables, log and counters are untouched. -/
theorem NewResource_error_iff_probe_error (conf : Config) (mgr : ManagerRef) (log : LoggerRef)
    (stats : StatsRef) (w : World) :
    (((NewResource conf mgr log stats w).1.2).isSome ↔
        ((ProbeInput mgr conf.Resource w).1).isSome) ∧
    (NewResource conf mgr log stats w).1 =
      (match (ProbeInput mgr conf.Resource w).1 with
       | some err => (none, some err)
       | none =>
         (some { mgr := mgr, name := conf.Resource, log := log,
                 mErrNotFound := GetCounter stats "error_not_found" }, none)) ∧
    (NewResource conf mgr log stats w).2.calls =
      w.calls ++ [RegistryCall.Probe mgr conf.Resource] ∧
    (∀ m n, RegistryCall.Access m n ∈ (NewResource conf mgr log stats w).2.calls →
      RegistryCall.Access m n ∈ w.calls) ∧
    (NewResource conf mgr log stats w).2.managers = w.managers ∧
    (NewResource conf mgr log stats w).2.logs = w.logs ∧
    (NewResource conf mgr log stats w).2.counters = w.counters := by
  cases h : w.input mgr conf.Resource <;> simp [NewResource, ProbeInput, h]

/-- Scenario C of the spec: constructing a wrapper for the unregistered `"ghost"` fails with
`NotFound`, returns no wrapper and records a single probe. -/
theorem NewResource_ghost :
    NewResource ⟨"ghost"⟩ 0 0 0 srcWorld =
      ((none, some ErrNotFound), { srcWorld with calls := [RegistryCall.Probe 0 "ghost"] }) := by
  decide

/-- C2: when the wrapper's label is bound to `A`, `TransactionChan` returns the stream `A`
hands out; after the label is rebound to `B` the same wrapper returns the stream `B` hands
out, hence not the one of `A` whenever the two differ. -/
theorem TransactionChan_relays_current_binding (r : Resource) (w : World) (A B : Input)
    (hA : w.input r.mgr r.name = some A) :
    (r.TransactionChan w).1 = A.TransactionChan ∧
    (r.TransactionChan ((r.TransactionChan w).2.rebind r.mgr r.name B)).1 = B.TransactionChan ∧
    (B.TransactionChan ≠ A.TransactionChan →
      (r.TransactionChan ((r.TransactionChan w).2.rebind r.mgr r.name B)).1
        ≠ A.TransactionChan) ∧
    (∀ w1 : World, (r.TransactionChan (w1.rebind r.mgr r.name B)).1 = B.TransactionChan) := by
  have h1 : (r.TransactionChan w).1 = A.TransactionChan := by
    rw [TransactionChan_bound r w A hA]
  have h2 : (r.TransactionChan ((r.TransactionChan w).2.rebind r.mgr r.name B)).1
      = B.TransactionChan := by
    rw [TransactionChan_bound r _ B (input_rebind_same _ _ _ _)]
  refine ⟨h1, h2, fun hne => by rw [h2]; exact hne, fun w1 => ?_⟩
  rw [TransactionChan_bound r _ B (input_rebind_same _ _ _ _)]

/-- Scenario A with a rebind: `"src"` is bound to `inputA`, the wrapper returns channel 1;
after rebinding to `inputB` it returns channel 2. -/
theorem TransactionChan_relays_current_binding_witness :
    srcWorld.input 0 "src" = some inputA ∧
    (srcWrapper.TransactionChan srcWorld).1 = some 1 ∧
    (srcWrapper.TransactionChan
       ((srcWrapper.TransactionChan srcWorld).2.rebind 0 "src" inputB)).1 = some 2 :=
  ⟨by decide,
   (TransactionChan_relays_current_binding srcWrapper srcWorld inputA inputB (by decide)).1,
   (TransactionChan_relays_current_binding srcWrapper srcWorld inputA inputB (by decide)).2.1⟩

/-- C3: when the wrapper's label is not bound, `AccessInput` returns an error and
`TransactionChan` still returns: its result is the nil channel, and exactly one logger call
is added, at debug severity, on the wrapper's logger; no table is changed. -/
theorem TransactionChan_unresolved_degrades (r : Resource) (w : World)
    (h : w.input r.mgr r.name = none) :
    (AccessInput r.mgr r.name (fun i _ => i.TransactionChan) (none : Stream) w).1
      = some ErrNotFound ∧
    (r.TransactionChan w).1 = none ∧
    (r.TransactionChan w).2.logs =
      w.logs ++ [{ logger := r.log, level := LogLevel.Debug,
                   format := "Failed to obtain input resource '%v': %v",
                   args := [r.name, ErrNotFound.Error] }] ∧
    (r.TransactionChan w).2.managers = w.managers := by
  rw [TransactionChan_unbound r w h]
  simp [AccessInput, h, StatCounter.Incr, Debugf]

/-- Scenario B of the spec, stream part: the wrapper for `"ghost"` returns the nil channel and
logs once at debug severity. -/
theorem TransactionChan_unresolved_degrades_witness :
    srcWorld.input 0 "ghost" = none ∧
    ((AccessInput 0 "ghost" (fun i _ => i.TransactionChan) (none : Stream) srcWorld).1
        = some ErrNotFound ∧
     (ghostWrapper.TransactionChan srcWorld).1 = none ∧
     (ghostWrapper.TransactionChan srcWorld).2.logs =
       [{ logger := 0, level := LogLevel.Debug,
          format := "Failed to obtain input resource '%v': %v",
          args := ["ghost", "not found"] }] ∧
     (ghostWrapper.TransactionChan srcWorld).2.managers = [(0, [("src", inputA)])]) :=
  ⟨by decide, TransactionChan_unresolved_degrades ghostWrapper srcWorld (by decide)⟩

/-- C4: one call of `TransactionChan` or of `Connected` moves the wrapper's not-found counter
by exactly 1 when the label is unresolved and by exactly 0 when it is resolved; a sequence of
`n` such calls on an unresolved label moves it by exactly `n` (and by 0 on a resolved one). -/
theorem not_found_counter_counts_misses (r : Resource) (w : World) (op : Lookup)
    (ops : List Lookup) :
    (r.call op w).counter r.mErrNotFound =
      w.counter r.mErrNotFound + (if (w.input r.mgr r.name).isSome then 0 else 1) ∧
    (r.calls ops w).counter r.mErrNotFound =
      w.counter r.mErrNotFound +
        (if (w.input r.mgr r.name).isSome then 0 else (ops.length : Int)) :=
  ⟨call_counter r op w, calls_counter r ops w⟩

/-- Scenario B of the spec, counter part: three calls on `"ghost"` leave the counter at 3,
three calls on `"src"` leave it at 0. -/
theorem not_found_counter_ghost :
    (ghostWrapper.calls [Lookup.TransactionChan, Lookup.Connected, Lookup.TransactionChan]
        srcWorld).counter ghostWrapper.mErrNotFound = 3 ∧
    (srcWrapper.calls [Lookup.TransactionChan, Lookup.Connected, Lookup.TransactionChan]
        srcWorld).counter srcWrapper.mErrNotFound = 0 := by
  decide

/-- C5: `Connected` returns `false` when the label is unresolved and otherwise the
connectivity flag of the bound instance; so it returns `true` exactly when the label is bound
and the bound instance reports connected. -/
theorem Connected_relays_flag (r : Resource) (w : World) :
    (r.Connected w).1 =
      (match w.input r.mgr r.name with
       | some i => i.Connected
       | none => false) ∧
    ((r.Connected w).1 = true ↔
      ∃ i, w.input r.mgr r.name = some i ∧ i.Connected = true) := by
  cases h : w.input r.mgr r.name with
  | none => simp [Connected_unbound r w h]
  | some i => simp [Connected_bound r w i h]

/-- C6: `CloseAsync` and `WaitForClose` change nothing, for every timeout: `WaitForClose`
returns a nil error, the world (tables, counters, log, call record) and the wrapper are what
they were, and a following `TransactionChan` or `Connected` gives what it would have given. -/
theorem CloseAsync_WaitForClose_noop (r : Resource) (w : World) (timeout : Int) :
    r.CloseAsync w = (r, w) ∧
    r.WaitForClose timeout w = (none, r, w) ∧
    (r.CloseAsync w).1.TransactionChan (r.CloseAsync w).2 = r.TransactionChan w ∧
    (r.CloseAsync w).1.Connected (r.CloseAsync w).2 = r.Connected w ∧
    (r.WaitForClose timeout w).2.1.TransactionChan (r.WaitForClose timeout w).2.2
      = r.TransactionChan w ∧
    (r.WaitForClose timeout w).2.1.Connected (r.WaitForClose timeout w).2.2
      = r.Connected w :=
  ⟨rfl, rfl, rfl, rfl, rfl, rfl⟩


/-! ## The label linter -/

/-- The string `lintResource` tests is the declaration's label, or `""` when it has none. -/
theorem lintResource_label (v : Value) :
    assertString ((gabsWrap v).S "label").Data = v.label.getD "" := by
  cases v with
  | null => rfl
  | bool b => rfl
  | num n => rfl
  | str s => rfl
  | other p => rfl
  | arr items =>
    have h1 : ("label" : String) ≠ "*" := by decide
    have h2 : Atoi "label" = none := by decide
    simp [gabsWrap, Container.S, Container.Data, h1, h2, assertString, Value.label]
  | obj fields =>
    cases h : assocGet "label" fields with
    | none => simp [gabsWrap, Container.S, Container.Data, h, assertString, Value.label]
    | some x =>
      cases x <;> simp [gabsWrap, Container.S, Container.Data, h, assertString, Value.label]

theorem lintResource_eq {Ctx : Type} (ctx : Ctx) (line col : Int) (v : Value) :
    lintResource ctx line col v =
      if v.label.getD "" = "" then [NewLintError line labelLintText] else [] := by
  simp only [lintResource, lintResource_label, labelLintText]

/-- The fields of `Spec` that carry a custom linter are the five resource lists, and each of
them is declared with `.Array()`. -/
theorem Spec_linted_fields :
    (((Spec Unit).filter (fun f => f.customLint.isSome)).map (fun f => (f.Name, f.Kind))) =
      [("input_resources", FieldKind.Array), ("processor_resources", FieldKind.Array),
       ("output_resources", FieldKind.Array), ("cache_resources", FieldKind.Array),
       ("rate_limit_resources", FieldKind.Array)] := by
  decide

/-- Sample runs of `lintResource` on line 7: a labelled entry passes; an entry without label,
with a numeric label, with an empty label, a bare string and a list each give the one lint. -/
theorem lintResource_samples :
    lintResource () 7 3 (Value.obj [("label", Value.str "foo"), ("kafka", Value.obj [])]) = [] ∧
    lintResource () 7 3 (Value.obj [("kafka", Value.obj [])]) = [NewLintError 7 labelLintText] ∧
    lintResource () 7 3 (Value.obj [("label", Value.num 3)]) = [NewLintError 7 labelLintText] ∧
    lintResource () 7 3 (Value.obj [("label", Value.str "")]) = [NewLintError 7 labelLintText] ∧
    lintResource () 7 3 (Value.str "label") = [NewLintError 7 labelLintText] ∧
    lintResource () 7 3 (Value.arr [Value.obj [("label", Value.str "foo")]])
      = [NewLintError 7 labelLintText] ∧
    lintResource () 7 3 Value.null = [NewLintError 7 labelLintText] := by
  decide

/-- C8: `lintResource` returns exactly one lint, carrying the given line, if and only if the
declaration has no `label` field (which covers a declaration that is not an object), or its
`label` is not a string, or its `label` is the empty string; it returns no lint when `label`
is a non-empty string; and it never returns anything else. -/
theorem lintResource_one_lint_iff_no_usable_label {Ctx : Type} (ctx : Ctx) (line col : Int)
    (v : Value) :
    (lintResource ctx line col v = [NewLintError line labelLintText] ↔
      ((¬ ∃ fields x, v = Value.obj fields ∧ assocGet "label" fields = some x) ∨
       (∃ fields x, v = Value.obj fields ∧ assocGet "label" fields = some x ∧
          ∀ s, x ≠ Value.str s) ∨
       (∃ fields, v = Value.obj fields ∧ assocGet "label" fields = some (Value.str "")))) ∧
    (∀ fields s, v = Value.obj fields → assocGet "label" fields = some (Value.str s) →
      s ≠ "" → lintResource ctx line col v = []) ∧
    (NewLintError line labelLintText).Line = line ∧
    (lintResource ctx line col v = [] ∨
      lintResource ctx line col v = [NewLintError line labelLintText]) := by
  refine ⟨?_, ?_, rfl, ?_⟩
  · rw [lintResource_eq]
    cases v with
    | null => simp [Value.label]
    | bool b => simp [Value.label]
    | num n => simp [Value.label]
    | str s => simp [Value.label]
    | other p => simp [Value.label]
    | arr items => simp [Value.label]
    | obj fields =>
      cases h : assocGet "label" fields with
      | none => simp [Value.label, h]
      | some x =>
        cases x with
        | str s =>
          by_cases hs : s = ""
          · simp [Value.label, h, hs]
          · simp [Value.label, h, hs]
        | null => simp [Value.label, h]
        | bool b => simp [Value.label, h]
        | num n => simp [Value.label, h]
        | arr items => simp [Value.label, h]
        | obj fs => simp [Value.label, h]
        | other p => simp [Value.label, h]
  · intro fields s hv hl hs
    rw [lintResource_eq, hv]
    simp [Value.label, hl, hs]
  · rw [lintResource_eq]
    by_cases h : v.label.getD "" = "" <;> simp [h]

/-- C7, the code at the failing input: two entries of one list, on lines 2 and 5, both carry
the label `"foo"`; `lintResource` returns no lint for either of them, and so does the linter
that `Spec` installs on each of the five resource lists, although the lint text and the field
descriptions of `docs.go` say that labels must be unique. -/
theorem lintResource_misses_duplicate_labels :
    duplicateDeclarations.map (fun d => (d.line, d.value.label)) =
      [(2, some "foo"), (5, some "foo")] ∧
    duplicateDeclarations.map (fun d => lintResource () d.line d.col d.value) = [[], []] ∧
    ["input_resources", "processor_resources", "output_resources", "cache_resources",
      "rate_limit_resources"].map
        (fun field => (installedLinter Unit field).map
          (fun linter => duplicateDeclarations.map (fun d => linter () d.line d.col d.value))) =
      [some [[], []], some [[], []], some [[], []], some [[], []], some [[], []]] := by
  decide

/-! ## The air-gapped logger -/

/-- The lines `TestReverseAirGapLogger` expects: no debug line, and `field1`, `field2` on the
lines of the derived logger only. -/
theorem TestReverseAirGapLogger_expected :
    TestReverseAirGapLogger =
      [ ⟨LogLevel.Info, "foo: %v", ["bar2"], [("@service", "benthos"), ("component", "benthos")]⟩,
        ⟨LogLevel.Info, "foo2: %v", ["bar2"],
          [("@service", "benthos"), ("component", "benthos"), ("field1", "value1"),
           ("field2", "value2")]⟩,
        ⟨LogLevel.Warn, "foo: %v", ["bar3"], [("@service", "benthos"), ("component", "benthos")]⟩,
        ⟨LogLevel.Error, "foo: %v", ["bar4"], [("@service", "benthos"), ("component", "benthos")]⟩,
        ⟨LogLevel.Warn, "foo2: %v", ["bar3"],
          [("@service", "benthos"), ("component", "benthos"), ("field1", "value1"),
           ("field2", "value2")]⟩,
        ⟨LogLevel.Error, "foo2: %v", ["bar4"],
          [("@service", "benthos"), ("component", "benthos"), ("field1", "value1"),
           ("field2", "value2")]⟩ ] := by
  decide

/-- The lines `TestReverseAirGapLoggerDodgyFields` expects. -/
theorem TestReverseAirGapLoggerDodgyFields_expected :
    TestReverseAirGapLoggerDodgyFields =
      [ ⟨LogLevel.Info, "foo1", [],
          [("@service", "benthos"), ("component", "benthos"), ("field1", "value1")]⟩,
        ⟨LogLevel.Info, "foo2", [],
          [("@service", "benthos"), ("component", "benthos"), ("10", "20")]⟩,
        ⟨LogLevel.Info, "foo3", [],
          [("@service", "benthos"), ("component", "benthos"), ("field3", "30")]⟩,
        ⟨LogLevel.Info, "foo4", [],
          [("@service", "benthos"), ("component", "benthos"), ("field4", "value4"),
           ("field5", "value5")]⟩ ] := by
  decide


theorem pairFields_length : ∀ args : List Arg, (pairFields args).length = args.length / 2
  | [] => by simp [pairFields]
  | [_] => by simp [pairFields]
  | _ :: _ :: rest => by
    simp only [pairFields, List.length_cons, pairFields_length rest]
    omega

theorem pairFields_getElem? : ∀ (args : List Arg) (i : Nat) (k v : Arg),
    args[2 * i]? = some k → args[2 * i + 1]? = some v →
      (pairFields args)[i]? = some (k.render, v.render)
  | [], i, k, v => by simp
  | [_], i, k, v => by simp
  | a :: b :: rest, 0, k, v => by
    simp only [pairFields]
    intro h1 h2
    simp at h1 h2
    simp [h1, h2]
  | a :: b :: rest, i + 1, k, v => by
    simp only [pairFields]
    intro h1 h2
    have e1 : 2 * (i + 1) = 2 * i + 1 + 1 := by ring
    have e2 : 2 * (i + 1) + 1 = 2 * i + 1 + 1 + 1 := by ring
    rw [e1] at h1
    rw [e2] at h2
    simp only [List.getElem?_cons_succ] at h1 h2
    simpa using pairFields_getElem? rest i k v h1 h2

theorem pairFields_trailing : ∀ (args : List Arg) (x : Arg), args.length % 2 = 0 →
    pairFields (args ++ [x]) = pairFields args
  | [], x => by simp [pairFields]
  | [_], x => by simp
  | a :: b :: rest, x => by
    intro h
    have h' : rest.length % 2 = 0 := by
      simp only [List.length_cons] at h
      omega
    simp [pairFields, pairFields_trailing rest x h']

theorem log_eq (l : AirGapLogger) (level : LogLevel) (format : String) (args : List Arg)
    (buf : List Record) :
    l.log level format args buf =
      buf ++ (if l.m.threshold.rank ≤ level.rank then
        [{ level := level, format := format, args := args.map Arg.render, fields := l.m.fields }]
      else []) := by
  cases level <;>
    simp only [AirGapLogger.log, AirGapLogger.Debugf, AirGapLogger.Infof, AirGapLogger.Warnf,
      AirGapLogger.Errorf, Modular.logf] <;>
    split <;> simp

theorem emitted_log (l : AirGapLogger) (level : LogLevel) (format : String) (args : List Arg)
    (buf : List Record) :
    emitted buf (l.log level format args buf) =
      if l.m.threshold.rank ≤ level.rank then
        [{ level := level, format := format, args := args.map Arg.render, fields := l.m.fields }]
      else [] := by
  simp [emitted, log_eq]


theorem assocGet_assocPut_ne {κ β : Type} [DecidableEq κ] (k k' : κ) (v : β)
    (l : List (κ × β)) (h : k' ≠ k) : assocGet k (assocPut k' v l) = assocGet k l := by
  induction l with
  | nil => simp [assocPut, assocGet, h]
  | cons hd tl ih =>
    obtain ⟨k'', v''⟩ := hd
    by_cases hk : k'' = k'
    · subst hk
      simp [assocPut, assocGet, h]
    · by_cases hk2 : k'' = k
      · subst hk2
        simp [assocPut, assocGet, hk]
      · simp [assocPut, assocGet, hk, hk2, ih]

theorem assocPut_fresh {κ β : Type} [DecidableEq κ] (k : κ) (v : β) (l : List (κ × β))
    (h : k ∉ l.map Prod.fst) : assocPut k v l = l ++ [(k, v)] := by
  induction l with
  | nil => rfl
  | cons hd tl ih =>
    obtain ⟨k', v'⟩ := hd
    simp only [List.map_cons, List.mem_cons, not_or] at h
    have hne : ¬ k' = k := fun e => h.1 e.symm
    simp [assocPut, hne, ih h.2]

/-- Reading a key after setting pairs: the last pair with that key decides, and a key that no
pair has keeps the value it had. -/
theorem assocGet_setFields (key : String) : ∀ (pairs fs : List (String × String)),
    assocGet key (setFields fs pairs) =
      (match lastValue key pairs with
       | some v => some v
       | none => assocGet key fs)
  | [], fs => by simp [setFields, lastValue]
  | (k, v) :: rest, fs => by
    have ih := assocGet_setFields key rest (assocPut k v fs)
    simp only [setFields, List.foldl_cons] at ih ⊢
    rw [ih]
    simp only [lastValue]
    cases h : lastValue key rest with
    | some later => rfl
    | none =>
      by_cases hk : k = key
      · subst hk
        simp [assocGet_assocPut_same]
      · simp [hk, assocGet_assocPut_ne key k v fs hk]

/-- Setting pairs whose keys are new and pairwise distinct appends them. -/
theorem setFields_fresh : ∀ (pairs fs : List (String × String)),
    (pairs.map Prod.fst).Nodup → (∀ k ∈ pairs.map Prod.fst, k ∉ fs.map Prod.fst) →
      setFields fs pairs = fs ++ pairs
  | [], fs => by simp [setFields]
  | (k, v) :: rest, fs => by
    intro hnd hfresh
    simp only [List.map_cons, List.nodup_cons] at hnd
    have hk : k ∉ fs.map Prod.fst := hfresh k (by simp)
    have ih := setFields_fresh rest (fs ++ [(k, v)]) hnd.2 (by
      intro k' hk'
      have h1 : k' ∉ fs.map Prod.fst := hfresh k' (by simp [hk'])
      have h2 : k' ≠ k := fun e => hnd.1 (e ▸ hk')
      simpa [h2] using h1)
    simp only [setFields, List.foldl_cons] at ih ⊢
    rw [assocPut_fresh k v fs hk, ih]
    simp

theorem setFields_setFields (fs pa pb : List (String × String)) :
    setFields (setFields fs pa) pb = setFields fs (pa ++ pb) := by
  simp [setFields, List.foldl_append]

theorem lastValue_isSome_of_mem (key value : String) : ∀ pairs : List (String × String),
    (key, value) ∈ pairs → ∃ v, lastValue key pairs = some v
  | [], h => by simp at h
  | (k, v) :: rest, h => by
    simp only [lastValue]
    cases hl : lastValue key rest with
    | some later => exact ⟨later, rfl⟩
    | none =>
      simp only [List.mem_cons, Prod.mk.injEq] at h
      rcases h with h | h
      · exact ⟨v, by simp [h.1]⟩
      · obtain ⟨v', hv'⟩ := lastValue_isSome_of_mem key value rest h
        rw [hl] at hv'
        cases hv'

/-- C9, as stated, fails: `With("a", "1", "a", "2")` pairs its arguments into `a = 1` and
`a = 2`, yet the derived logger gains the single field `a = 2`; the pair `a = 1` is not among
its fields. -/
theorem With_repeated_key_keeps_last_value :
    pairFields [Arg.str "a", Arg.str "1", Arg.str "a", Arg.str "2"] = [("a", "1"), ("a", "2")] ∧
    ((newReverseAirGapLogger testLogger).With
        [Arg.str "a", Arg.str "1", Arg.str "a", Arg.str "2"]).2.m.fields =
      [("@service", "benthos"), ("component", "benthos"), ("a", "2")] ∧
    ("a", "1") ∉ ((newReverseAirGapLogger testLogger).With
        [Arg.str "a", Arg.str "1", Arg.str "a", Arg.str "2"]).2.m.fields := by
  decide

/-- C9, amended: the arguments of `With` are paired consecutively (argument `2i` is the key,
argument `2i+1` its value, each in its string form, a trailing argument without partner being
ignored) and the pairs are set by key on the derived logger: a key reads the value of the last
pair that has it, and every other key reads what it read on the receiver; when no key repeats
and none is on the receiver, the fields added are exactly the pairs, in order; `With(10, 20)`
sets `"10" = "20"`, `With("field3", 30)` sets `"field3" = "30"`, and
`With("field1", "value1", "field2")` does what `With("field1", "value1")` does. -/
theorem With_sets_paired_arguments (l : AirGapLogger) (args : List Arg) :
    (∀ key, assocGet key (l.With args).2.m.fields =
      (match lastValue key (pairFields args) with
       | some v => some v
       | none => assocGet key l.m.fields)) ∧
    (l.With args).2.m.threshold = l.m.threshold ∧
    (pairFields args).length = args.length / 2 ∧
    (∀ i k v, args[2 * i]? = some k → args[2 * i + 1]? = some v →
      (pairFields args)[i]? = some (k.render, v.render)) ∧
    (((pairFields args).map Prod.fst).Nodup →
      (∀ k ∈ (pairFields args).map Prod.fst, k ∉ l.m.fields.map Prod.fst) →
      (l.With args).2.m.fields = l.m.fields ++ pairFields args) ∧
    (∀ x, args.length % 2 = 0 → (l.With (args ++ [x])).2 = (l.With args).2) ∧
    assocGet "10" (l.With [Arg.int 10, Arg.int 20]).2.m.fields = some "20" ∧
    assocGet "field3" (l.With [Arg.str "field3", Arg.int 30]).2.m.fields = some "30" ∧
    assocGet "field1" (l.With [Arg.str "field1", Arg.str "value1", Arg.str "field2"]).2.m.fields
      = some "value1" ∧
    (l.With [Arg.str "field1", Arg.str "value1", Arg.str "field2"]).2 =
      (l.With [Arg.str "field1", Arg.str "value1"]).2 := by
  refine ⟨?_, rfl, pairFields_length args, pairFields_getElem? args, ?_, ?_, ?_, ?_, ?_, rfl⟩
  · intro key
    exact assocGet_setFields key (pairFields args) l.m.fields
  · intro hnd hfresh
    exact setFields_fresh (pairFields args) l.m.fields hnd hfresh
  · intro x hx
    simp only [AirGapLogger.With, pairFields_trailing args x hx]
  · have h := assocGet_setFields "10" (pairFields [Arg.int 10, Arg.int 20]) l.m.fields
    have e : lastValue "10" (pairFields [Arg.int 10, Arg.int 20]) = some "20" := by decide
    rw [e] at h
    exact h
  · have h := assocGet_setFields "field3" (pairFields [Arg.str "field3", Arg.int 30]) l.m.fields
    have e : lastValue "field3" (pairFields [Arg.str "field3", Arg.int 30]) = some "30" := by
      decide
    rw [e] at h
    exact h
  · have h := assocGet_setFields "field1"
      (pairFields [Arg.str "field1", Arg.str "value1", Arg.str "field2"]) l.m.fields
    have e : lastValue "field1"
        (pairFields [Arg.str "field1", Arg.str "value1", Arg.str "field2"]) = some "value1" := by
      decide
    rw [e] at h
    exact h

/-- C10, as stated, fails twice: the receiver of `With("component", "benthos")` already has
that field, so its later lines do carry an added field; and after
`With("k", "1").With("k", "2")` a line carries `k = 2` only, not the field `k = 1` of the
first call. -/
theorem With_chain_overrides_earlier_value :
    pairFields [Arg.str "component", Arg.str "benthos"] = [("component", "benthos")] ∧
    emitted [] (((newReverseAirGapLogger testLogger).With
        [Arg.str "component", Arg.str "benthos"]).1.Infof "foo" [] []) =
      [⟨LogLevel.Info, "foo", [], [("@service", "benthos"), ("component", "benthos")]⟩] ∧
    pairFields [Arg.str "k", Arg.str "1"] = [("k", "1")] ∧
    emitted [] ((((newReverseAirGapLogger testLogger).With [Arg.str "k", Arg.str "1"]).2.With
        [Arg.str "k", Arg.str "2"]).2.Infof "foo" [] []) =
      [⟨LogLevel.Info, "foo", [],
        [("@service", "benthos"), ("component", "benthos"), ("k", "2")]⟩] := by
  decide

/-- C10, amended: `With` returns a derived logger and leaves the receiver as it was: a line
logged through the receiver after the call carries exactly the receiver's own fields; on a
line logged through the derived logger every key of an added pair is present and reads the
last value paired with it, and every other key reads what it reads on the receiver; a call at
or above the threshold writes exactly one line; chained calls accumulate by key, a line of
`l.With(a).With(b)` reading a key from the last pair of `b` that has it, else from the last
pair of `a`, else from `l`; and when no key repeats and none is on `l`, that line carries the
fields of `l`, of `a` and of `b`, all of them. -/
theorem With_derives_by_key_and_leaves_receiver (l : AirGapLogger) (a b : List Arg)
    (level : LogLevel) (format : String) (args : List Arg) (buf : List Record) :
    (l.With a).1 = l ∧
    (∀ rec ∈ emitted buf ((l.With a).1.log level format args buf), rec.fields = l.m.fields) ∧
    (∀ rec ∈ emitted buf ((l.With a).2.log level format args buf),
      (∀ key, assocGet key rec.fields =
        (match lastValue key (pairFields a) with
         | some v => some v
         | none => assocGet key l.m.fields)) ∧
      (∀ f ∈ pairFields a, ∃ v, lastValue f.1 (pairFields a) = some v ∧
        assocGet f.1 rec.fields = some v)) ∧
    (l.m.threshold.rank ≤ level.rank →
      (emitted buf ((l.With a).1.log level format args buf)).length = 1 ∧
      (emitted buf ((l.With a).2.log level format args buf)).length = 1) ∧
    (∀ rec ∈ emitted buf (((l.With a).2.With b).2.log level format args buf),
      (∀ key, assocGet key rec.fields =
        (match lastValue key (pairFields b) with
         | some v => some v
         | none =>
           (match lastValue key (pairFields a) with
            | some v => some v
            | none => assocGet key l.m.fields))) ∧
      (((pairFields a ++ pairFields b).map Prod.fst).Nodup →
        (∀ k ∈ (pairFields a ++ pairFields b).map Prod.fst, k ∉ l.m.fields.map Prod.fst) →
        rec.fields = l.m.fields ++ pairFields a ++ pairFields b)) := by
  have hderived : ∀ key, assocGet key (l.With a).2.m.fields =
      (match lastValue key (pairFields a) with
       | some v => some v
       | none => assocGet key l.m.fields) :=
    fun key => assocGet_setFields key (pairFields a) l.m.fields
  refine ⟨rfl, ?_, ?_, ?_, ?_⟩
  · intro rec hrec
    rw [emitted_log] at hrec
    split at hrec
    · simp only [List.mem_singleton] at hrec
      subst hrec
      rfl
    · simp at hrec
  · intro rec hrec
    rw [emitted_log] at hrec
    split at hrec
    · simp only [List.mem_singleton] at hrec
      subst hrec
      refine ⟨hderived, ?_⟩
      intro f hf
      obtain ⟨v, hv⟩ := lastValue_isSome_of_mem f.1 f.2 (pairFields a) hf
      refine ⟨v, hv, ?_⟩
      have h := hderived f.1
      rw [hv] at h
      exact h
    · simp at hrec
  · intro hle
    have h2 : (l.With a).2.m.threshold.rank ≤ level.rank := hle
    have h1 : (l.With a).1.m.threshold.rank ≤ level.rank := hle
    rw [emitted_log, emitted_log, if_pos h1, if_pos h2]
    exact ⟨rfl, rfl⟩
  · intro rec hrec
    rw [emitted_log] at hrec
    split at hrec
    · simp only [List.mem_singleton] at hrec
      subst hrec
      refine ⟨?_, ?_⟩
      · intro key
        have h := assocGet_setFields key (pairFields b) (l.With a).2.m.fields
        rw [hderived key] at h
        exact h
      · intro hnd hfresh
        have h : ((l.With a).2.With b).2.m.fields =
            setFields l.m.fields (pairFields a ++ pairFields b) :=
          setFields_setFields l.m.fields (pairFields a) (pairFields b)
        have h' := setFields_fresh (pairFields a ++ pairFields b) l.m.fields hnd hfresh
        rw [h'] at h
        simpa [List.append_assoc] using h
    · simp at hrec

end Benthos
